import Mathlib

/-!
Shallow embedding of the Blackjack rules engine in `game.py` (plus the
duplicated comparator in `window.py`), with theorems checking the
natural-language specification against it.

Python exceptions are modelled by an explicit error type; machine state
mutation is modelled by explicit state passing; the unbounded dealer
while-loop is modelled with a fuel argument instantiated at the deck size
(each iteration removes one card from the deck, so that fuel is exact).
-/

/-- Python exceptions raised by the game module: `ValueError` and `TypeError`. -/
inductive PyError where
  | valueError (msg : String)
  | typeError (msg : String)
deriving DecidableEq, Repr

/-- `class Suit(Enum)`, four suits. -/
inductive Suit where
  | hearts | diamonds | clubs | spades
deriving DecidableEq, Repr

/-- `class Rank(Enum)`, thirteen ranks. -/
inductive Rank where
  | two | three | four | five | six | seven | eight | nine | ten
  | jack | queen | king | ace
deriving DecidableEq, Repr

/-- The `base_value` carried by each `Rank` member (2..10 literal, faces 10, ace 11). -/
def Rank.base_value : Rank → Nat
  | .two => 2
  | .three => 3
  | .four => 4
  | .five => 5
  | .six => 6
  | .seven => 7
  | .eight => 8
  | .nine => 9
  | .ten => 10
  | .jack => 10
  | .queen => 10
  | .king => 10
  | .ace => 11

/-- `class Card`: an immutable (suit, rank) pair. -/
structure Card where
  suit : Suit
  rank : Rank
deriving DecidableEq, Repr

/-- `Card.get_value(allow_ace_as_one)`: 1 for an ace when the flag is set,
else the rank's base value. -/
def Card.get_value (c : Card) (allow_ace_as_one : Bool) : Nat :=
  if c.rank = Rank.ace ∧ allow_ace_as_one then 1 else c.rank.base_value

/-- The while loop of `calculate_hand_value`:
`while total > 21 and num_aces > 0: total -= 10; num_aces -= 1; has_ace = True`.
Returns the final `(total, num_aces, has_ace)`. -/
def demoteLoop : Nat → Nat → Bool → Nat × Nat × Bool
  | total, 0, has_ace => (total, 0, has_ace)
  | total, aces + 1, has_ace =>
    if 21 < total then demoteLoop (total - 10) aces true
    else (total, aces + 1, has_ace)

/-- `total = sum(card.get_value(allow_ace_as_one=False) for card in cards)`. -/
def handBase (cards : List Card) : Nat :=
  (cards.map (fun c => c.get_value false)).sum

/-- `num_aces = sum(1 for card in cards if card.rank == Rank.ACE)`. -/
def numAces (cards : List Card) : Nat :=
  (cards.filter (fun c => c.rank = Rank.ace)).length

/-- `calculate_hand_value(cards)`: sum with every ace as 11, demote aces while
busting, and finally `if num_aces > 0: has_ace = True`. -/
def calculate_hand_value (cards : List Card) : Nat × Bool :=
  let r := demoteLoop (handBase cards) (numAces cards) false
  (r.1, r.2.2 || decide (0 < r.2.1))

/-- Sum of the hand with every ace counted as 1. -/
def handMinSum (cards : List Card) : Nat :=
  (cards.map (fun c => c.get_value true)).sum

/-- The totals reachable by valuing each ace as 1 or 11:
`handMinSum + 10 * k` for `k` from `0` to the number of aces. -/
def achievableList (cards : List Card) : List Nat :=
  (List.range (numAces cards + 1)).map (fun k => handMinSum cards + 10 * k)

example : calculate_hand_value
    [⟨Suit.hearts, Rank.ace⟩, ⟨Suit.hearts, Rank.nine⟩, ⟨Suit.hearts, Rank.five⟩]
    = (15, true) := by decide

example : calculate_hand_value
    [⟨Suit.hearts, Rank.ace⟩, ⟨Suit.hearts, Rank.ten⟩,
     ⟨Suit.diamonds, Rank.ten⟩, ⟨Suit.clubs, Rank.ten⟩] = (31, true) := by decide

example : calculate_hand_value
    [⟨Suit.hearts, Rank.ace⟩, ⟨Suit.diamonds, Rank.ace⟩, ⟨Suit.hearts, Rank.nine⟩]
    = (21, true) := by decide

example : calculate_hand_value [⟨Suit.hearts, Rank.ace⟩, ⟨Suit.hearts, Rank.nine⟩]
    = (20, true) := by decide

/-- `compare_hands(player_total, dealer_total)` from `game.py`. The
`isinstance(..., int)` guard raising `TypeError` is enforced by the `Int`
argument types of the embedding and has no runtime counterpart here. -/
def compare_hands (player_total dealer_total : Int) :
    Except PyError (String × String) :=
  if player_total < 0 ∨ dealer_total < 0 then
    .error (.valueError "Totals must be non-negative")
  else if 21 < player_total then
    .ok ("bust", s!"Player busts with {player_total}. Dealer wins.")
  else if 21 < dealer_total then
    .ok ("win", s!"Dealer busts with {dealer_total}. Player wins!")
  else if dealer_total < player_total then
    .ok ("win", s!"Player wins: {player_total} vs {dealer_total}.")
  else if player_total < dealer_total then
    .ok ("lose", s!"Dealer wins: {dealer_total} vs {player_total}.")
  else
    .ok ("push", s!"Push (tie) at {player_total}.")

/-- `compare_totals(player_total, dealer_total)` from `window.py`: a duplicate
of `compare_hands` whose dealer-bust message ends in a period, not `!`. -/
def compare_totals (player_total dealer_total : Int) :
    Except PyError (String × String) :=
  if player_total < 0 ∨ dealer_total < 0 then
    .error (.valueError "Totals must be non-negative")
  else if 21 < player_total then
    .ok ("bust", s!"Player busts with {player_total}. Dealer wins.")
  else if 21 < dealer_total then
    .ok ("win", s!"Dealer busts with {dealer_total}. Player wins.")
  else if dealer_total < player_total then
    .ok ("win", s!"Player wins: {player_total} vs {dealer_total}.")
  else if player_total < dealer_total then
    .ok ("lose", s!"Dealer wins: {dealer_total} vs {player_total}.")
  else
    .ok ("push", s!"Push (tie) at {player_total}.")

/-- The four-way categorical result of §4.4 of the spec, as the spec orders
the comparisons. -/
def claimedResult (player_total dealer_total : Int) : String :=
  if 21 < player_total then "bust"
  else if 21 < dealer_total then "win"
  else if dealer_total < player_total then "win"
  else if player_total < dealer_total then "lose"
  else "push"

/-- `Deck._build` order: `for suit in Suit: for rank in Rank: append`. -/
def allSuits : List Suit := [.hearts, .diamonds, .clubs, .spades]

/-- Declaration order of the `Rank` enum members. -/
def allRanks : List Rank :=
  [.two, .three, .four, .five, .six, .seven, .eight, .nine, .ten,
   .jack, .queen, .king, .ace]

/-- The card list a freshly constructed `Deck` holds (before shuffling). -/
def freshDeck : List Card :=
  (allSuits.map (fun s => allRanks.map (fun r => ⟨s, r⟩))).flatten

/-- `Deck.deal`: `if not self.cards: raise ValueError("Deck is empty")`, else
`return self.cards.pop()` — remove and return the last element. -/
def dealCard (cards : List Card) : Except PyError (Card × List Card) :=
  match cards.getLast? with
  | none => .error (.valueError "Deck is empty")
  | some c => .ok (c, cards.dropLast)

/-- `k` successive `deal` calls, collecting the drawn cards in order. -/
def drawN : Nat → List Card → Except PyError (List Card × List Card)
  | 0, deck => .ok ([], deck)
  | k + 1, deck => do
    let (c, deck2) ← dealCard deck
    let (cs, deck3) ← drawN k deck2
    .ok (c :: cs, deck3)

/-- The mutable state of `class BlackjackGame`, minus the session-constant
`mode` field, which no claim touches after construction. -/
structure BlackjackGame where
  starting_balance : Int
  target_balance : Int
  mode : String
  balance : Int
  current_bet : Int
  deck : List Card
  player_hand : List Card
  dealer_hand : List Card
  game_state : String
  result_message : String
deriving DecidableEq, Repr

/-- `BlackjackGame.deal_initial_hands`: draw two cards each, then settle
natural blackjacks. `int(self.current_bet * 1.5)` truncates toward zero,
which is `Int.tdiv` here. -/
def BlackjackGame.deal_initial_hands (g : BlackjackGame) :
    Except PyError BlackjackGame := do
  let (p1, deck1) ← dealCard g.deck
  let (p2, deck2) ← dealCard deck1
  let (c1, deck3) ← dealCard deck2
  let (c2, deck4) ← dealCard deck3
  let player_hand := [p1, p2]
  let dealer_hand := [c1, c2]
  let player_total := (calculate_hand_value player_hand).1
  let dealer_total := (calculate_hand_value dealer_hand).1
  if player_total = 21 ∧ dealer_total ≠ 21 then
    .ok { g with
          player_hand := player_hand
          dealer_hand := dealer_hand
          deck := deck4
          game_state := "result"
          result_message := "Natural Blackjack! Player wins!"
          balance := g.balance + Int.tdiv (g.current_bet * 3) 2 }
  else if dealer_total = 21 ∧ player_total ≠ 21 then
    .ok { g with
          player_hand := player_hand
          dealer_hand := dealer_hand
          deck := deck4
          game_state := "result"
          result_message := "Dealer has Blackjack! Dealer wins."
          balance := g.balance - g.current_bet }
  else if player_total = 21 ∧ dealer_total = 21 then
    .ok { g with
          player_hand := player_hand
          dealer_hand := dealer_hand
          deck := deck4
          game_state := "result"
          result_message := "Both have Blackjack! Push." }
  else
    .ok { g with
          player_hand := player_hand
          dealer_hand := dealer_hand
          deck := deck4
          game_state := "playing" }

/-- `BlackjackGame.player_hit`: outside `playing` return `invalid` without
mutation; else draw one card, and on a bust settle the bet. The source also
calls `compare_hands(player_total, 0)` and discards its result. -/
def BlackjackGame.player_hit (g : BlackjackGame) :
    Except PyError ((String × String) × BlackjackGame) :=
  if g.game_state ≠ "playing" then .ok (("invalid", "Cannot hit now."), g)
  else do
    let (c, deck2) ← dealCard g.deck
    let player_hand := g.player_hand ++ [c]
    let player_total := (calculate_hand_value player_hand).1
    if 21 < player_total then
      let _ ← compare_hands (player_total : Int) 0
      let msg := s!"Player busts with {player_total}. Dealer wins."
      .ok (("bust", msg),
        { g with
          player_hand := player_hand
          deck := deck2
          game_state := "result"
          result_message := msg
          balance := g.balance - g.current_bet })
    else
      .ok (("hit", s!"Hit! New total: {player_total}"),
        { g with
          player_hand := player_hand
          deck := deck2 })

/-- The dealer's `while True` loop in `player_stand`, with a fuel argument:
stop as soon as the dealer total reaches 17, else deal one card and repeat.
With fuel `deck.length` the fuel never runs out before the deck does, so the
zero-fuel case coincides with `dealCard []`. -/
def dealerLoop : Nat → List Card → List Card →
    Except PyError (List Card × List Card)
  | 0, dealer_hand, deck =>
    if 17 ≤ (calculate_hand_value dealer_hand).1 then .ok (dealer_hand, deck)
    else .error (.valueError "Deck is empty")
  | fuel + 1, dealer_hand, deck =>
    if 17 ≤ (calculate_hand_value dealer_hand).1 then .ok (dealer_hand, deck)
    else do
      let (c, deck2) ← dealCard deck
      dealerLoop fuel (dealer_hand ++ [c]) deck2

/-- The dealer plays out the hand: the loop of `player_stand` run on the
current deck. -/
def dealerPlay (dealer_hand deck : List Card) :
    Except PyError (List Card × List Card) :=
  dealerLoop deck.length dealer_hand deck

/-- `BlackjackGame.player_stand`: dealer plays to 17+, hands are compared,
the bet settled, phase set to `result` and then overridden by the session
win/broke thresholds. -/
def BlackjackGame.player_stand (g : BlackjackGame) :
    Except PyError ((String × String) × BlackjackGame) :=
  if g.game_state ≠ "playing" then .ok (("invalid", "Cannot stand now."), g)
  else do
    let (dealer_hand, deck2) ← dealerPlay g.dealer_hand g.deck
    let player_total := (calculate_hand_value g.player_hand).1
    let dealer_total := (calculate_hand_value dealer_hand).1
    let (result, message) ←
      compare_hands (player_total : Int) (dealer_total : Int)
    let balance2 :=
      if result = "win" then g.balance + g.current_bet
      else if result = "lose" then g.balance - g.current_bet
      else g.balance
    let state2 :=
      if g.target_balance ≤ balance2 then "won"
      else if balance2 ≤ 0 then "out_of_money"
      else "result"
    .ok (("stand", message),
      { g with
        dealer_hand := dealer_hand
        deck := deck2
        balance := balance2
        game_state := state2
        result_message := message })


/-! ## Hand-valuation lemmas -/

/-- With the ace-as-one flag off, a card's value is always its base value. -/
lemma Card.get_value_false (c : Card) : c.get_value false = c.rank.base_value := by
  simp [Card.get_value]

/-- The all-aces-as-11 sum exceeds the all-aces-as-1 sum by 10 per ace. -/
lemma handBase_eq (cards : List Card) :
    handBase cards = handMinSum cards + 10 * numAces cards := by
  induction cards with
  | nil => rfl
  | cons c rest ih =>
    by_cases h : c.rank = Rank.ace
    · simp [handBase, handMinSum, numAces, Card.get_value, h,
        Rank.base_value, List.filter_cons] at ih ⊢
      omega
    · simp [handBase, handMinSum, numAces, Card.get_value, h,
        List.filter_cons] at ih ⊢
      omega

/-- After the demotion loop, the `has_ace || aces > 0` combination the source
computes equals `s || aces > 0` for the initial values. -/
lemma demoteLoop_soft (a : Nat) : ∀ t s,
    ((demoteLoop t a s).2.2 || decide (0 < (demoteLoop t a s).2.1))
      = (s || decide (0 < a)) := by
  induction a with
  | zero => intro t s; simp [demoteLoop]
  | succ a ih =>
    intro t s
    by_cases h : 21 < t
    · simp [demoteLoop, h, ih]
    · simp [demoteLoop, h]

/-- The soft flag of `calculate_hand_value` is exactly "the hand has an ace". -/
lemma calc_soft_eq (cards : List Card) :
    (calculate_hand_value cards).2 = decide (0 < numAces cards) := by
  have h := demoteLoop_soft (numAces cards) (handBase cards) false
  simpa [calculate_hand_value] using h

/-- Invariant of the demotion loop, started at `base + 10 * a` with `a` aces:
the result is `base + 10 * k` for the greatest `k ≤ a` that does not bust
(or `k = 0` when every choice busts), with `k` aces left un-demoted. -/
lemma demoteLoop_base (a : Nat) : ∀ base s,
    ∃ k, k ≤ a ∧
      (demoteLoop (base + 10 * a) a s).1 = base + 10 * k ∧
      (demoteLoop (base + 10 * a) a s).2.1 = k ∧
      (base + 10 * k ≤ 21 ∨ k = 0) ∧
      (∀ j, k < j → j ≤ a → 21 < base + 10 * j) := by
  induction a with
  | zero =>
    intro base s
    refine ⟨0, Nat.le_refl 0, by simp [demoteLoop], by simp [demoteLoop], ?_, ?_⟩
    · exact Or.inr rfl
    · intro j hj hj2; omega
  | succ a ih =>
    intro base s
    by_cases h : 21 < base + 10 * (a + 1)
    · have e : base + 10 * (a + 1) - 10 = base + 10 * a := by omega
      have step : demoteLoop (base + 10 * (a + 1)) (a + 1) s
          = demoteLoop (base + 10 * a) a true := by
        show (if 21 < base + 10 * (a + 1) then
            demoteLoop (base + 10 * (a + 1) - 10) a true
          else (base + 10 * (a + 1), a + 1, s))
          = demoteLoop (base + 10 * a) a true
        rw [if_pos h, e]
      obtain ⟨k, hk, h1, h2, h3, h4⟩ := ih base true
      refine ⟨k, Nat.le_succ_of_le hk, ?_, ?_, h3, ?_⟩
      · rw [step]; exact h1
      · rw [step]; exact h2
      · intro j hj1 hj2
        by_cases hj3 : j ≤ a
        · exact h4 j hj1 hj3
        · have : j = a + 1 := by omega
          subst this
          exact h
    · refine ⟨a + 1, Nat.le_refl _, ?_, ?_, ?_, ?_⟩
      · show (if 21 < base + 10 * (a + 1) then
            demoteLoop (base + 10 * (a + 1) - 10) a true
          else (base + 10 * (a + 1), a + 1, s)).1 = base + 10 * (a + 1)
        rw [if_neg h]
      · show (if 21 < base + 10 * (a + 1) then
            demoteLoop (base + 10 * (a + 1) - 10) a true
          else (base + 10 * (a + 1), a + 1, s)).2.1 = a + 1
        rw [if_neg h]
      · exact Or.inl (by omega)
      · intro j hj1 hj2; omega

/-- Characterization of the returned total in terms of the number of aces
left at 11: it is the greatest non-busting valuation when one exists. -/
lemma calc_total_spec (cards : List Card) :
    ∃ k, k ≤ numAces cards ∧
      (calculate_hand_value cards).1 = handMinSum cards + 10 * k ∧
      (handMinSum cards + 10 * k ≤ 21 ∨ k = 0) ∧
      (∀ j, k < j → j ≤ numAces cards → 21 < handMinSum cards + 10 * j) := by
  obtain ⟨k, hk, h1, _h2, h3, h4⟩ :=
    demoteLoop_base (numAces cards) (handMinSum cards) false
  refine ⟨k, hk, ?_, h3, h4⟩
  show (demoteLoop (handBase cards) (numAces cards) false).1
      = handMinSum cards + 10 * k
  rw [handBase_eq]
  exact h1

/-- `calculate_hand_value` depends only on the multiset of ranks held. -/
lemma calc_value_congr (h1 h2 : List Card)
    (hp : (h1.map Card.rank).Perm (h2.map Card.rank)) :
    calculate_hand_value h1 = calculate_hand_value h2 := by
  have hb : handBase h1 = handBase h2 := by
    have e : ∀ l : List Card,
        handBase l = ((l.map Card.rank).map Rank.base_value).sum := by
      intro l
      simp only [handBase, Card.get_value_false, List.map_map]
      rfl
    rw [e, e]
    exact (hp.map Rank.base_value).sum_eq
  have ha : numAces h1 = numAces h2 := by
    have e : ∀ l : List Card,
        numAces l = (l.map Card.rank).countP (fun r => r = Rank.ace) := by
      intro l
      rw [List.countP_map, numAces, ← List.countP_eq_length_filter]
      rfl
    rw [e, e]
    exact hp.countP_eq _
  simp [calculate_hand_value, hb, ha]

/-! ## Concrete hands used by the claims -/

/-- Ace, ten, ten, ten: busts at 31 even with the ace demoted to 1. -/
def bustedAceHand : List Card :=
  [⟨.hearts, .ace⟩, ⟨.hearts, .ten⟩, ⟨.diamonds, .ten⟩, ⟨.clubs, .ten⟩]

/-- One ace, one 9, one 5. -/
def aceNineFiveHand : List Card :=
  [⟨.hearts, .ace⟩, ⟨.hearts, .nine⟩, ⟨.hearts, .five⟩]

/-- One ace and one 9. -/
def aceNineHand : List Card := [⟨.hearts, .ace⟩, ⟨.hearts, .nine⟩]

/-- Two aces and one 9. -/
def aceAceNineHand : List Card :=
  [⟨.hearts, .ace⟩, ⟨.diamonds, .ace⟩, ⟨.hearts, .nine⟩]

/-! ## C1: the soft flag -/

/-- C1 (counterexample): the claim "soft is true exactly when the hand
contains an ace AND the total is at most 21" fails on the busted hand
ace+10+10+10, which evaluates to `(31, true)`: the flag is true although the
total exceeds 21. -/
theorem soft_claim_fails_on_busted_hand :
    ¬ ((calculate_hand_value bustedAceHand).2 = true ↔
        (∃ c ∈ bustedAceHand, c.rank = Rank.ace) ∧
        (calculate_hand_value bustedAceHand).1 ≤ 21) := by decide

/-- C1 (amended): for every hand, the soft flag returned by
`calculate_hand_value` is true exactly when the hand contains at least one
ace — with no condition on the total, busted hands included. -/
theorem soft_flag_iff_hand_has_ace (cards : List Card) :
    (calculate_hand_value cards).2 = true ↔ ∃ c ∈ cards, c.rank = Rank.ace := by
  rw [calc_soft_eq, numAces, ← List.countP_eq_length_filter]
  simp only [decide_eq_true_eq]
  rw [List.countP_pos_iff]
  simp

/-! ## C2: the ace + 9 + 5 hand -/

/-- C2 (counterexample): the hand ace, 9, 5 does not evaluate to
`(15, false)`: the demotion loop runs (25 → 15) and sets the flag. -/
theorem ace_nine_five_not_hard_fifteen :
    calculate_hand_value aceNineFiveHand ≠ (15, false) := by decide

/-- C2 (amended): every hand consisting of exactly one ace, one 9 and one 5,
in any order and any suits, evaluates to `(15, true)`. -/
theorem ace_nine_five_soft_fifteen (hand : List Card)
    (hp : (hand.map Card.rank).Perm [Rank.ace, Rank.nine, Rank.five]) :
    calculate_hand_value hand = (15, true) := by
  have h := calc_value_congr hand aceNineFiveHand hp
  rw [h]
  decide

/-- C2 witness: the amended theorem applied to the concrete hand
A♥, 9♥, 5♥. -/
theorem ace_nine_five_soft_fifteen_check :
    (aceNineFiveHand.map Card.rank).Perm [Rank.ace, Rank.nine, Rank.five] ∧
    calculate_hand_value aceNineFiveHand = (15, true) :=
  ⟨List.Perm.refl _, ace_nine_five_soft_fifteen aceNineFiveHand (List.Perm.refl _)⟩

/-! ## C3: which achievable total is returned -/

/-- C3 (counterexample): on the hand ace + 9 the returned total is not the
minimal achievable non-busting total: 10 is achievable (ace as 1) and below
21, yet the function returns 20. -/
theorem total_not_minimal_on_ace_nine :
    ∃ t ∈ achievableList aceNineHand,
      t ≤ 21 ∧ t < (calculate_hand_value aceNineHand).1 := by decide

/-- C3 (amended): the returned total is always an achievable valuation of the
hand; it is the GREATEST achievable total not exceeding 21 whenever some
valuation avoids busting (equivalently, when the all-aces-as-1 sum is at most
21), and otherwise it is the sum with every ace counted as 1. In particular
ace + ace + 9 evaluates to `(21, true)`. -/
theorem total_is_greatest_achievable :
    (∀ cards : List Card,
      (calculate_hand_value cards).1 ∈ achievableList cards ∧
      (handMinSum cards ≤ 21 →
        (calculate_hand_value cards).1 ≤ 21 ∧
        ∀ t ∈ achievableList cards, t ≤ 21 →
          t ≤ (calculate_hand_value cards).1) ∧
      (21 < handMinSum cards →
        (calculate_hand_value cards).1 = handMinSum cards)) ∧
    calculate_hand_value aceAceNineHand = (21, true) := by
  constructor
  · intro cards
    obtain ⟨k, hk, h1, h3, h4⟩ := calc_total_spec cards
    refine ⟨?_, ?_, ?_⟩
    · simp only [achievableList, List.mem_map, List.mem_range]
      exact ⟨k, by omega, h1.symm⟩
    · intro hmin
      constructor
      · rcases h3 with h3 | h3 <;> omega
      · intro t ht htle
        simp only [achievableList, List.mem_map, List.mem_range] at ht
        obtain ⟨j, hj, rfl⟩ := ht
        by_cases hjk : j ≤ k
        · omega
        · have := h4 j (by omega) (by omega)
          omega
    · intro hmin
      rcases h3 with h3 | h3 <;> omega
  · decide

/-- C3 witness: the amended theorem applied to the hand ace + 9, whose
all-aces-as-1 sum 10 does not bust. -/
theorem total_is_greatest_achievable_check :
    handMinSum aceNineHand ≤ 21 ∧
    ((calculate_hand_value aceNineHand).1 ≤ 21 ∧
      ∀ t ∈ achievableList aceNineHand, t ≤ 21 →
        t ≤ (calculate_hand_value aceNineHand).1) :=
  ⟨by decide, (total_is_greatest_achievable.1 aceNineHand).2.1 (by decide)⟩

/-! ## C4 and C9: the outcome comparators -/

/-- Case analysis of `compare_hands`: it fails exactly on a negative input,
and on non-negative inputs it returns the four-way result of §4.4. -/
lemma compare_hands_cases (p d : Int) :
    ((∃ e, compare_hands p d = .error e) ↔ p < 0 ∨ d < 0) ∧
    (0 ≤ p → 0 ≤ d → ∃ msg, compare_hands p d = .ok (claimedResult p d, msg)) := by
  unfold compare_hands claimedResult
  split_ifs with h1 h2 h3 h4 h5
  · exact ⟨⟨fun _ => h1, fun _ => ⟨_, rfl⟩⟩,
      fun hp hd => absurd h1 (by omega)⟩
  all_goals
    refine ⟨⟨fun he => ?_, fun hc => absurd hc h1⟩, fun hp hd => ⟨_, rfl⟩⟩
  all_goals
    obtain ⟨e, he⟩ := he
  all_goals exact he.elim

/-- C4: `compare_hands` fails (with the comparator's argument error) exactly
when an argument is negative, and on non-negative totals returns, in order of
precedence: bust if the player exceeds 21, else win if the dealer exceeds 21,
else win/lose/push by numeric comparison. The non-integer half of the
precondition is enforced by the `Int` argument types of the embedding. -/
theorem compare_hands_matches_rules (p d : Int) :
    ((∃ e, compare_hands p d = .error e) ↔ p < 0 ∨ d < 0) ∧
    (0 ≤ p → 0 ≤ d → ∃ msg, compare_hands p d = .ok (claimedResult p d, msg)) :=
  compare_hands_cases p d

/-- C4 witness: the rule table at the claim's sample points, and failure at
`(-1, 5)`, all obtained from the theorem (plus direct evaluation of
`claimedResult` at those points). -/
theorem compare_hands_matches_rules_check :
    ((∃ e, compare_hands (-1) 5 = .error e) ↔ (-1 : Int) < 0 ∨ (5 : Int) < 0) ∧
    (∃ msg, compare_hands 22 18 = .ok (claimedResult 22 18, msg)) ∧
    (∃ msg, compare_hands 20 22 = .ok (claimedResult 20 22, msg)) ∧
    (∃ msg, compare_hands 20 19 = .ok (claimedResult 20 19, msg)) ∧
    (∃ msg, compare_hands 18 20 = .ok (claimedResult 18 20, msg)) ∧
    (∃ msg, compare_hands 21 21 = .ok (claimedResult 21 21, msg)) ∧
    claimedResult 22 18 = "bust" ∧ claimedResult 20 22 = "win" ∧
    claimedResult 20 19 = "win" ∧ claimedResult 18 20 = "lose" ∧
    claimedResult 21 21 = "push" :=
  ⟨(compare_hands_matches_rules (-1) 5).1,
   (compare_hands_matches_rules 22 18).2 (by omega) (by omega),
   (compare_hands_matches_rules 20 22).2 (by omega) (by omega),
   (compare_hands_matches_rules 20 19).2 (by omega) (by omega),
   (compare_hands_matches_rules 18 20).2 (by omega) (by omega),
   (compare_hands_matches_rules 21 21).2 (by omega) (by omega),
   by decide, by decide, by decide, by decide, by decide⟩

/-- C9: the duplicated comparator in the window module agrees with the game
module's comparator on the categorical result and on the error for every pair
of integer inputs; mapping away the message component makes them equal, so
only the message wording can differ. The non-integer failure mode is
enforced by the `Int` argument types in both embeddings. -/
theorem compare_totals_refines_compare_hands (p d : Int) :
    Except.map Prod.fst (compare_totals p d)
      = Except.map Prod.fst (compare_hands p d) := by
  unfold compare_totals compare_hands
  split_ifs <;> rfl

/-! ## C8: deck invariants -/

/-- `deal` succeeds exactly by splitting off the last card. -/
lemma dealCard_ok (d d2 : List Card) (c : Card) :
    dealCard d = .ok (c, d2) ↔ d = d2 ++ [c] := by
  constructor
  · intro h
    rcases List.eq_nil_or_concat d with rfl | ⟨l, a, rfl⟩
    · simp [dealCard] at h
    · simp [dealCard, List.getLast?_concat, List.dropLast_concat] at h
      obtain ⟨rfl, rfl⟩ := h
      exact List.concat_eq_append l a
  · rintro rfl
    simp [dealCard, List.getLast?_concat, List.dropLast_concat]

/-- `k` successful draws split the deck into the remainder plus the drawn
cards (in reverse draw order) and draw exactly `k` cards. -/
lemma drawN_ok : ∀ k d cs d2, drawN k d = .ok (cs, d2) →
    d = d2 ++ cs.reverse ∧ cs.length = k := by
  intro k
  induction k with
  | zero =>
    intro d cs d2 h
    simp only [drawN] at h
    obtain ⟨rfl, rfl⟩ : cs = [] ∧ d2 = d := by
      cases h
      exact ⟨rfl, rfl⟩
    simp
  | succ k ih =>
    intro d cs d2 h
    simp only [drawN] at h
    cases hdeal : dealCard d with
    | error e =>
      rw [hdeal] at h
      exact Except.noConfusion h
    | ok v =>
      obtain ⟨c, d3⟩ := v
      rw [hdeal] at h
      simp only [Bind.bind, Except.bind] at h
      cases hrec : drawN k d3 with
      | error e =>
        rw [hrec] at h
        exact Except.noConfusion h
      | ok w =>
        obtain ⟨cs2, d4⟩ := w
        rw [hrec] at h
        simp only [Bind.bind, Except.bind, Except.ok.injEq, Prod.mk.injEq] at h
        obtain ⟨hcs, hd2⟩ := h
        subst hcs
        subst hd2
        obtain ⟨hd3, hlen⟩ := ih d3 cs2 d4 hrec
        subst hd3
        constructor
        · rw [(dealCard_ok d (d4 ++ cs2.reverse) c).mp hdeal]
          simp [List.append_assoc, List.reverse_cons]
        · simp [hlen]

/-- C8: a fresh deck holds 52 pairwise-distinct cards; any `k` successful
draws from it (or from any shuffle of it) leave `52 - k` cards with no
duplicate anywhere among the remaining and drawn cards; and dealing from an
empty deck fails with the deck's emptiness error instead of returning a
card. -/
theorem deck_fiftytwo_unique_draws :
    freshDeck.length = 52 ∧ freshDeck.Nodup ∧
    (∀ deck : List Card, deck.Perm freshDeck →
      ∀ k cs deck2, drawN k deck = .ok (cs, deck2) →
        deck2.length = 52 - k ∧ (deck2 ++ cs.reverse).Nodup) ∧
    dealCard [] = .error (.valueError "Deck is empty") := by
  have hnodup : freshDeck.Nodup := by decide
  refine ⟨by decide, hnodup, ?_, rfl⟩
  intro deck hperm k cs deck2 h
  obtain ⟨hsplit, hlen⟩ := drawN_ok k deck cs deck2 h
  have hdn : deck.Nodup := hperm.nodup_iff.mpr hnodup
  have hdl : deck.length = 52 := by
    rw [hperm.length_eq]
    decide
  constructor
  · have := congrArg List.length hsplit
    simp at this
    omega
  · rw [← hsplit]
    exact hdn

/-- C8 witness: drawing one card from the fresh deck leaves 51 cards and no
duplicates; the drawn card is the ace of spades, the deck's last card. -/
theorem deck_fiftytwo_unique_draws_check :
    freshDeck.dropLast.length = 52 - 1 ∧
    (freshDeck.dropLast ++ ([(⟨.spades, .ace⟩ : Card)]).reverse).Nodup :=
  deck_fiftytwo_unique_draws.2.2.1 freshDeck (List.Perm.refl _) 1
    [⟨.spades, .ace⟩] freshDeck.dropLast (by rfl)

/-! ## C5: dealing and natural-blackjack settlement -/

/-- Python's `int(x)` truncates toward zero; on non-negative values this is
the floor, so the 3:2 payout can equally be written with `Int.fdiv`. -/
lemma tdiv_two_eq_fdiv_two (n : Int) (h : 0 ≤ n) : n.tdiv 2 = n.fdiv 2 := by
  obtain ⟨m, rfl⟩ := Int.eq_ofNat_of_zero_le h
  cases m with
  | zero => rfl
  | succ m => rfl

/-- Full case analysis of a successful `deal_initial_hands`: the four cards
come off the back of the deck, two per hand, and the state is settled by the
four natural-blackjack cases. -/
lemma deal_initial_hands_ok (g g2 : BlackjackGame)
    (h : g.deal_initial_hands = .ok g2) :
    ∃ p1 p2 c1 c2 rest,
      g.deck = rest ++ [c2, c1, p2, p1] ∧
      g2.player_hand = [p1, p2] ∧
      g2.dealer_hand = [c1, c2] ∧
      g2.deck = rest ∧
      g2.current_bet = g.current_bet ∧
      g2.target_balance = g.target_balance ∧
      ((calculate_hand_value [p1, p2]).1 = 21 ∧
          (calculate_hand_value [c1, c2]).1 ≠ 21 →
        g2.game_state = "result" ∧
        g2.balance = g.balance + Int.tdiv (g.current_bet * 3) 2) ∧
      ((calculate_hand_value [c1, c2]).1 = 21 ∧
          (calculate_hand_value [p1, p2]).1 ≠ 21 →
        g2.game_state = "result" ∧ g2.balance = g.balance - g.current_bet) ∧
      ((calculate_hand_value [p1, p2]).1 = 21 ∧
          (calculate_hand_value [c1, c2]).1 = 21 →
        g2.game_state = "result" ∧ g2.balance = g.balance) ∧
      ((calculate_hand_value [p1, p2]).1 ≠ 21 ∧
          (calculate_hand_value [c1, c2]).1 ≠ 21 →
        g2.game_state = "playing" ∧ g2.balance = g.balance) := by
  unfold BlackjackGame.deal_initial_hands at h
  cases h1 : dealCard g.deck with
  | error e => rw [h1] at h; exact Except.noConfusion h
  | ok v1 =>
  obtain ⟨p1, deck1⟩ := v1
  rw [h1] at h
  simp only [Bind.bind, Except.bind] at h
  cases h2 : dealCard deck1 with
  | error e => rw [h2] at h; exact Except.noConfusion h
  | ok v2 =>
  obtain ⟨p2, deck2⟩ := v2
  rw [h2] at h
  simp only [Bind.bind, Except.bind] at h
  cases h3 : dealCard deck2 with
  | error e => rw [h3] at h; exact Except.noConfusion h
  | ok v3 =>
  obtain ⟨c1, deck3⟩ := v3
  rw [h3] at h
  simp only [Bind.bind, Except.bind] at h
  cases h4 : dealCard deck3 with
  | error e => rw [h4] at h; exact Except.noConfusion h
  | ok v4 =>
  obtain ⟨c2, deck4⟩ := v4
  rw [h4] at h
  simp only [Bind.bind, Except.bind] at h
  have e1 := (dealCard_ok _ _ _).mp h1
  have e2 := (dealCard_ok _ _ _).mp h2
  have e3 := (dealCard_ok _ _ _).mp h3
  have e4 := (dealCard_ok _ _ _).mp h4
  have hdeck : g.deck = deck4 ++ [c2, c1, p2, p1] := by
    rw [e1, e2, e3, e4]
    simp
  refine ⟨p1, p2, c1, c2, deck4, hdeck, ?_⟩
  split_ifs at h with hA hB hC
  · obtain rfl : g2 = _ := (Except.ok.inj h).symm
    refine ⟨rfl, rfl, rfl, rfl, rfl, fun _ => ⟨rfl, rfl⟩, ?_, ?_, ?_⟩
    · intro hx; exact absurd hA.1 hx.2
    · intro hx; exact absurd hx.2 hA.2
    · intro hx; exact absurd hA.1 hx.1
  · obtain rfl : g2 = _ := (Except.ok.inj h).symm
    refine ⟨rfl, rfl, rfl, rfl, rfl, ?_, fun _ => ⟨rfl, rfl⟩, ?_, ?_⟩
    · intro hx; exact absurd hB.1 hx.2
    · intro hx; exact absurd hx.1 hB.2
    · intro hx; exact absurd hB.1 hx.2
  · obtain rfl : g2 = _ := (Except.ok.inj h).symm
    refine ⟨rfl, rfl, rfl, rfl, rfl, ?_, ?_, fun _ => ⟨rfl, rfl⟩, ?_⟩
    · intro hx; exact absurd hC.2 hx.2
    · intro hx; exact absurd hC.1 hx.2
    · intro hx; exact absurd hC.1 hx.1
  · obtain rfl : g2 = _ := (Except.ok.inj h).symm
    refine ⟨rfl, rfl, rfl, rfl, rfl, ?_, ?_, ?_, fun _ => ⟨rfl, rfl⟩⟩
    · intro hx; exact absurd hx hA
    · intro hx; exact absurd hx hB
    · intro hx; exact absurd hx hC

/-- C5: `deal_initial_hands` draws exactly two cards into each hand (four off
the deck) and settles by the four exclusive natural-21 cases: both 21 keeps
the balance, a player-only 21 pays `floor(bet * 1.5)`, a dealer-only 21 costs
the bet, and otherwise play continues with the balance unchanged. -/
theorem deal_initial_hands_settlement (g g2 : BlackjackGame)
    (hbet : 0 ≤ g.current_bet)
    (h : g.deal_initial_hands = .ok g2) :
    g2.player_hand.length = 2 ∧ g2.dealer_hand.length = 2 ∧
    g2.deck.length + 4 = g.deck.length ∧
    ((calculate_hand_value g2.player_hand).1 = 21 ∧
        (calculate_hand_value g2.dealer_hand).1 = 21 →
      g2.game_state = "result" ∧ g2.balance = g.balance) ∧
    ((calculate_hand_value g2.player_hand).1 = 21 ∧
        (calculate_hand_value g2.dealer_hand).1 ≠ 21 →
      g2.game_state = "result" ∧
      g2.balance = g.balance + Int.fdiv (g.current_bet * 3) 2) ∧
    ((calculate_hand_value g2.player_hand).1 ≠ 21 ∧
        (calculate_hand_value g2.dealer_hand).1 = 21 →
      g2.game_state = "result" ∧ g2.balance = g.balance - g.current_bet) ∧
    ((calculate_hand_value g2.player_hand).1 ≠ 21 ∧
        (calculate_hand_value g2.dealer_hand).1 ≠ 21 →
      g2.game_state = "playing" ∧ g2.balance = g.balance) := by
  obtain ⟨p1, p2, c1, c2, rest, hdeck, hph, hdh, hdk, _hcb, _htb,
    hPlayerOnly, hDealerOnly, hBoth, hNeither⟩ := deal_initial_hands_ok g g2 h
  have hlen : g2.deck.length + 4 = g.deck.length := by
    rw [hdk, hdeck]
    simp
  have hfd : Int.tdiv (g.current_bet * 3) 2 = Int.fdiv (g.current_bet * 3) 2 :=
    tdiv_two_eq_fdiv_two _ (by omega)
  rw [hph, hdh]
  refine ⟨rfl, rfl, hlen, ?_, ?_, ?_, ?_⟩
  · intro hx; exact hBoth hx
  · intro hx
    obtain ⟨hs, hb⟩ := hPlayerOnly hx
    exact ⟨hs, by rw [hb, hfd]⟩
  · intro hx; exact hDealerOnly ⟨hx.2, hx.1⟩
  · intro hx; exact hNeither hx

/-- A concrete pre-deal state: balance 2000, bet 100, and a stacked deck
whose top four cards give the player A♥ K♠ (a natural 21) and the dealer
9♥ 9♦ (18). -/
def gNatural : BlackjackGame :=
  { starting_balance := 2000
    target_balance := 25000
    mode := "classic"
    balance := 2000
    current_bet := 100
    deck := [⟨.hearts, .two⟩, ⟨.diamonds, .nine⟩, ⟨.hearts, .nine⟩,
             ⟨.spades, .king⟩, ⟨.hearts, .ace⟩]
    player_hand := []
    dealer_hand := []
    game_state := "dealing"
    result_message := "" }

/-- The state `deal_initial_hands` produces from `gNatural`: the player-only
natural pays 150 and the round is over. -/
def gNaturalAfter : BlackjackGame :=
  { starting_balance := 2000
    target_balance := 25000
    mode := "classic"
    balance := 2150
    current_bet := 100
    deck := [⟨.hearts, .two⟩]
    player_hand := [⟨.hearts, .ace⟩, ⟨.spades, .king⟩]
    dealer_hand := [⟨.hearts, .nine⟩, ⟨.diamonds, .nine⟩]
    game_state := "result"
    result_message := "Natural Blackjack! Player wins!" }

/-- C5 witness: on `gNatural` (balance 2000, bet 100) the player-only natural
leaves balance 2150 = 2000 + floor(100 * 1.5) and phase `result`. -/
theorem deal_initial_hands_settlement_check :
    gNatural.deal_initial_hands = .ok gNaturalAfter ∧
    gNaturalAfter.balance = 2150 ∧
    gNaturalAfter.game_state = "result" ∧
    gNaturalAfter.balance = gNatural.balance +
      Int.fdiv (gNatural.current_bet * 3) 2 :=
  ⟨by rfl, by decide, by decide,
   ((deal_initial_hands_settlement gNatural gNaturalAfter (by decide)
      (by rfl)).2.2.2.2.1 (by decide)).2⟩

/-! ## C7 and C10 (hit): hitting and its frame -/

/-- Outside the `playing` phase, `player_hit` reports `invalid` and returns
the state untouched. -/
lemma player_hit_not_playing (g : BlackjackGame) (h : g.game_state ≠ "playing") :
    g.player_hit = .ok (("invalid", "Cannot hit now."), g) := by
  unfold BlackjackGame.player_hit
  rw [if_pos h]

/-- Full case analysis of a successful `player_hit` in the `playing` phase:
one card moves from the back of the deck to the player hand; a bust settles
the bet and ends the round, otherwise nothing else changes. -/
lemma player_hit_playing_ok (g : BlackjackGame) (hplay : g.game_state = "playing")
    (r : String × String) (g2 : BlackjackGame)
    (h : g.player_hit = .ok (r, g2)) :
    ∃ c,
      g2.player_hand = g.player_hand ++ [c] ∧
      g.deck = g2.deck ++ [c] ∧
      g2.current_bet = g.current_bet ∧
      g2.target_balance = g.target_balance ∧
      (21 < (calculate_hand_value (g.player_hand ++ [c])).1 →
        r.1 = "bust" ∧ g2.game_state = "result" ∧
        g2.balance = g.balance - g.current_bet) ∧
      ((calculate_hand_value (g.player_hand ++ [c])).1 ≤ 21 →
        r.1 = "hit" ∧ g2.game_state = "playing" ∧ g2.balance = g.balance) := by
  unfold BlackjackGame.player_hit at h
  rw [if_neg (by simp [hplay])] at h
  cases h1 : dealCard g.deck with
  | error e => rw [h1] at h; exact Except.noConfusion h
  | ok v =>
  obtain ⟨c, deck2⟩ := v
  rw [h1] at h
  simp only [Bind.bind, Except.bind] at h
  have hdeckeq := (dealCard_ok _ _ _).mp h1
  split_ifs at h with hbust
  · obtain ⟨m, hm⟩ := (compare_hands_cases
      ((calculate_hand_value (g.player_hand ++ [c])).1 : Int) 0).2
      (Int.natCast_nonneg _) le_rfl
    rw [hm] at h
    simp only [Bind.bind, Except.bind] at h
    cases h
    refine ⟨c, rfl, hdeckeq, rfl, rfl, ?_, ?_⟩
    · intro _; exact ⟨rfl, rfl, rfl⟩
    · intro hle; exact absurd hbust (Nat.not_lt.mpr hle)
  · cases h
    refine ⟨c, rfl, hdeckeq, rfl, rfl, ?_, ?_⟩
    · intro hgt; exact absurd hgt hbust
    · intro _; exact ⟨rfl, hplay, rfl⟩

/-- C7: `player_hit` outside `playing` returns `invalid` with the state
untouched; in `playing` it appends exactly one card drawn off the deck, and
the balance changes (by exactly the bet, downward, with phase `result`)
precisely when the new total exceeds 21 — otherwise phase and balance are
unchanged. -/
theorem player_hit_frame (g : BlackjackGame) :
    (g.game_state ≠ "playing" →
      g.player_hit = .ok (("invalid", "Cannot hit now."), g)) ∧
    (g.game_state = "playing" →
      ∀ r g2, g.player_hit = .ok (r, g2) →
        ∃ c, g2.player_hand = g.player_hand ++ [c] ∧
          g.deck = g2.deck ++ [c] ∧
          (21 < (calculate_hand_value g2.player_hand).1 →
            r.1 = "bust" ∧ g2.game_state = "result" ∧
            g2.balance = g.balance - g.current_bet) ∧
          ((calculate_hand_value g2.player_hand).1 ≤ 21 →
            r.1 = "hit" ∧ g2.game_state = "playing" ∧
            g2.balance = g.balance)) := by
  refine ⟨player_hit_not_playing g, ?_⟩
  intro hplay r g2 h
  obtain ⟨c, hph, hdk, _, _, hbust, hok⟩ := player_hit_playing_ok g hplay r g2 h
  refine ⟨c, hph, hdk, ?_, ?_⟩
  · rw [hph]; exact hbust
  · rw [hph]; exact hok

/-- A `playing` state about to hit without busting: hand 5♥ 9♥ (14) and a
2♥ on top of the deck. -/
def gHit : BlackjackGame :=
  { starting_balance := 2000
    target_balance := 25000
    mode := "classic"
    balance := 2000
    current_bet := 100
    deck := [⟨.hearts, .two⟩]
    player_hand := [⟨.hearts, .five⟩, ⟨.hearts, .nine⟩]
    dealer_hand := [⟨.clubs, .king⟩, ⟨.clubs, .seven⟩]
    game_state := "playing"
    result_message := "" }

/-- The state `player_hit` produces from `gHit`: 16, still playing. -/
def gHitAfter : BlackjackGame :=
  { starting_balance := 2000
    target_balance := 25000
    mode := "classic"
    balance := 2000
    current_bet := 100
    deck := []
    player_hand := [⟨.hearts, .five⟩, ⟨.hearts, .nine⟩, ⟨.hearts, .two⟩]
    dealer_hand := [⟨.clubs, .king⟩, ⟨.clubs, .seven⟩]
    game_state := "playing"
    result_message := "" }

/-- `gHit` after the round has ended: hitting is invalid here. -/
def gDone : BlackjackGame := { gHit with game_state := "result" }

/-- C7 witness: the invalid branch on a `result`-phase state, and a
non-busting hit on `gHit` (drawing 2♥ for 16) that leaves phase and balance
unchanged. -/
theorem player_hit_frame_check :
    (gDone.game_state ≠ "playing" ∧
      gDone.player_hit = .ok (("invalid", "Cannot hit now."), gDone)) ∧
    gHit.player_hit = .ok (("hit", "Hit! New total: 16"), gHitAfter) ∧
    (∃ c, gHitAfter.player_hand = gHit.player_hand ++ [c] ∧
      gHit.deck = gHitAfter.deck ++ [c] ∧
      (21 < (calculate_hand_value gHitAfter.player_hand).1 →
        (("hit", "Hit! New total: 16") : String × String).1 = "bust" ∧
        gHitAfter.game_state = "result" ∧
        gHitAfter.balance = gHit.balance - gHit.current_bet) ∧
      ((calculate_hand_value gHitAfter.player_hand).1 ≤ 21 →
        (("hit", "Hit! New total: 16") : String × String).1 = "hit" ∧
        gHitAfter.game_state = "playing" ∧
        gHitAfter.balance = gHit.balance)) :=
  ⟨⟨by decide, (player_hit_frame gDone).1 (by decide)⟩,
   by rfl,
   (player_hit_frame gHit).2 (by rfl) ("hit", "Hit! New total: 16")
     gHitAfter (by rfl)⟩

/-- C10: the `balance ≥ target` / `balance ≤ 0` session checks run only in
`player_stand`: a natural-blackjack payout in `deal_initial_hands` that
reaches the target still leaves phase `result` (not `won`), and a bust in
`player_hit` that empties the balance still leaves phase `result` (not
`out_of_money`). -/
theorem thresholds_checked_only_on_stand :
    (∀ g g2 : BlackjackGame, g.deal_initial_hands = .ok g2 →
      g.target_balance ≤ g2.balance →
      (calculate_hand_value g2.player_hand).1 = 21 →
      (calculate_hand_value g2.dealer_hand).1 ≠ 21 →
      g2.game_state = "result") ∧
    (∀ (g : BlackjackGame) (r : String × String) (g2 : BlackjackGame),
      g.player_hit = .ok (r, g2) → r.1 = "bust" → g2.balance ≤ 0 →
      g2.game_state = "result") := by
  constructor
  · intro g g2 h _ht hp hd
    obtain ⟨p1, p2, c1, c2, rest, _hdeck, hph, hdh, _hdk, _hcb, _htb,
      hPlayerOnly, _hDealerOnly, _hBoth, _hNeither⟩ := deal_initial_hands_ok g g2 h
    rw [hph] at hp
    rw [hdh] at hd
    exact (hPlayerOnly ⟨hp, hd⟩).1
  · intro g r g2 h hbustr hbal
    by_cases hplay : g.game_state = "playing"
    · obtain ⟨c, _hph, _hdk, _, _, hbust, hok⟩ :=
        player_hit_playing_ok g hplay r g2 h
      rcases Nat.lt_or_ge 21 ((calculate_hand_value (g.player_hand ++ [c])).1)
        with hgt | hle
      · exact (hbust hgt).2.1
      · exact absurd (hbustr.symm.trans (hok hle).1) (by decide)
    · rw [player_hit_not_playing g hplay] at h
      have hr : (("invalid", "Cannot hit now.") : String × String) = r :=
        congrArg Prod.fst (Except.ok.inj h)
      rw [← hr] at hbustr
      exact absurd hbustr (by decide)

/-- `gNatural` with the session target lowered to 2100, which the natural
payout reaches. -/
def gTargetLow : BlackjackGame := { gNatural with target_balance := 2100 }

/-- What dealing produces from `gTargetLow`: balance 2150 ≥ 2100, but the
phase is `result`. -/
def gTargetLowAfter : BlackjackGame := { gNaturalAfter with target_balance := 2100 }

/-- A `playing` state one bust away from an empty balance. -/
def gBustBroke : BlackjackGame :=
  { starting_balance := 2000
    target_balance := 25000
    mode := "classic"
    balance := 100
    current_bet := 100
    deck := [⟨.diamonds, .king⟩]
    player_hand := [⟨.spades, .king⟩, ⟨.hearts, .queen⟩]
    dealer_hand := [⟨.clubs, .king⟩, ⟨.clubs, .seven⟩]
    game_state := "playing"
    result_message := "" }

/-- The bust `player_hit` produces from `gBustBroke`: balance 0, yet the
phase is `result`. -/
def gBustBrokeAfter : BlackjackGame :=
  { starting_balance := 2000
    target_balance := 25000
    mode := "classic"
    balance := 0
    current_bet := 100
    deck := []
    player_hand := [⟨.spades, .king⟩, ⟨.hearts, .queen⟩, ⟨.diamonds, .king⟩]
    dealer_hand := [⟨.clubs, .king⟩, ⟨.clubs, .seven⟩]
    game_state := "result"
    result_message := "Player busts with 30. Dealer wins." }

/-- C10 witness: the target-reaching natural leaves `result`, and the
balance-emptying bust leaves `result`. -/
theorem thresholds_checked_only_on_stand_check :
    (gTargetLow.target_balance ≤ gTargetLowAfter.balance ∧
      gTargetLowAfter.game_state = "result") ∧
    (gBustBrokeAfter.balance ≤ 0 ∧ gBustBrokeAfter.game_state = "result") :=
  ⟨⟨by decide,
    thresholds_checked_only_on_stand.1 gTargetLow gTargetLowAfter (by rfl)
      (by decide) (by decide) (by decide)⟩,
   ⟨by decide,
    thresholds_checked_only_on_stand.2 gBustBroke
      ("bust", "Player busts with 30. Dealer wins.") gBustBrokeAfter
      (by rfl) (by decide) (by decide)⟩⟩

/-! ## C6: standing, the dealer loop, and settlement -/

/-- Postcondition of the dealer loop: the final hand reaches at least 17,
extends the starting hand, and every card was appended at a moment when the
hand so far totalled under 17. -/
lemma dealerLoop_ok : ∀ (fuel : Nat) (dh deck dh2 deck2 : List Card),
    dealerLoop fuel dh deck = .ok (dh2, deck2) →
    17 ≤ (calculate_hand_value dh2).1 ∧
    (∃ ext, dh2 = dh ++ ext) ∧
    (∀ e1 c e2, dh2 = dh ++ e1 ++ c :: e2 →
      (calculate_hand_value (dh ++ e1)).1 < 17) := by
  intro fuel
  induction fuel with
  | zero =>
    intro dh deck dh2 deck2 h
    simp only [dealerLoop] at h
    split_ifs at h with h17
    · cases h
      refine ⟨h17, ⟨[], by simp⟩, ?_⟩
      intro e1 c e2 he
      exfalso
      have hlen := congrArg List.length he
      simp only [List.length_append, List.length_cons] at hlen
      omega
  | succ fuel ih =>
    intro dh deck dh2 deck2 h
    simp only [dealerLoop] at h
    split_ifs at h with h17
    · cases h
      refine ⟨h17, ⟨[], by simp⟩, ?_⟩
      intro e1 c e2 he
      exfalso
      have hlen := congrArg List.length he
      simp only [List.length_append, List.length_cons] at hlen
      omega
    · cases hdeal : dealCard deck with
      | error e => rw [hdeal] at h; exact Except.noConfusion h
      | ok v =>
        obtain ⟨c0, deck3⟩ := v
        rw [hdeal] at h
        simp only [Bind.bind, Except.bind] at h
        obtain ⟨hfin, ⟨ext, hext⟩, hgrow⟩ := ih (dh ++ [c0]) deck3 dh2 deck2 h
        refine ⟨hfin, ⟨c0 :: ext, by simpa [List.append_assoc] using hext⟩, ?_⟩
        intro e1 c e2 he
        cases e1 with
        | nil =>
          simpa using Nat.lt_of_not_le h17
        | cons c1 e1t =>
          have h1 : dh ++ (c1 :: (e1t ++ c :: e2)) = dh ++ (c0 :: ext) := by
            have h0 := hext.symm.trans he
            simpa [List.append_assoc] using h0.symm
          have hc := List.append_cancel_left h1
          obtain ⟨hc1, hext2⟩ := List.cons.inj hc
          subst hc1
          have hlt := hgrow e1t c e2 (by
            rw [hext, ← hext2]
            simp [List.append_assoc])
          simpa [List.append_assoc] using hlt

/-- Full case analysis of a successful `player_stand` in the `playing`
phase: the dealer hand is replaced by the played-out hand, the comparator's
result drives the bet settlement, and the final phase applies the session
thresholds on top of `result`. -/
lemma player_stand_playing_ok (g : BlackjackGame)
    (hplay : g.game_state = "playing")
    (r : String × String) (g2 : BlackjackGame)
    (h : g.player_stand = .ok (r, g2)) :
    ∃ dh deck2 msg,
      dealerPlay g.dealer_hand g.deck = .ok (dh, deck2) ∧
      g2.dealer_hand = dh ∧ g2.deck = deck2 ∧
      g2.player_hand = g.player_hand ∧
      g2.current_bet = g.current_bet ∧
      g2.target_balance = g.target_balance ∧
      compare_hands ((calculate_hand_value g.player_hand).1 : Int)
          ((calculate_hand_value dh).1 : Int)
        = .ok (claimedResult ((calculate_hand_value g.player_hand).1 : Int)
            ((calculate_hand_value dh).1 : Int), msg) ∧
      r = ("stand", msg) ∧
      g2.balance =
        (if claimedResult ((calculate_hand_value g.player_hand).1 : Int)
              ((calculate_hand_value dh).1 : Int) = "win"
          then g.balance + g.current_bet
          else if claimedResult ((calculate_hand_value g.player_hand).1 : Int)
              ((calculate_hand_value dh).1 : Int) = "lose"
          then g.balance - g.current_bet
          else g.balance) ∧
      g2.game_state =
        (if g.target_balance ≤ g2.balance then "won"
          else if g2.balance ≤ 0 then "out_of_money" else "result") := by
  unfold BlackjackGame.player_stand at h
  rw [if_neg (by simp [hplay])] at h
  cases hdp : dealerPlay g.dealer_hand g.deck with
  | error e => rw [hdp] at h; exact Except.noConfusion h
  | ok v =>
  obtain ⟨dh, deck2⟩ := v
  rw [hdp] at h
  simp only [Bind.bind, Except.bind] at h
  obtain ⟨msg, hm⟩ := (compare_hands_cases
    ((calculate_hand_value g.player_hand).1 : Int)
    ((calculate_hand_value dh).1 : Int)).2
    (Int.natCast_nonneg _) (Int.natCast_nonneg _)
  rw [hm] at h
  simp only [Bind.bind, Except.bind] at h
  cases h
  exact ⟨dh, deck2, msg, rfl, rfl, rfl, rfl, rfl, rfl, hm, rfl, rfl, rfl⟩

/-- C6: after a successful stand from the `playing` phase the dealer hand
totals at least 17 and grew only while it totalled under 17; the comparator
result then settles the bet (win +bet, lose −bet, push/bust unchanged), and
the final phase is `won` when the balance reaches the target, else
`out_of_money` when it is non-positive, else `result`. -/
theorem player_stand_dealer_and_settlement (g : BlackjackGame)
    (r : String × String) (g2 : BlackjackGame)
    (hplay : g.game_state = "playing")
    (h : g.player_stand = .ok (r, g2)) :
    17 ≤ (calculate_hand_value g2.dealer_hand).1 ∧
    (∃ ext, g2.dealer_hand = g.dealer_hand ++ ext) ∧
    (∀ e1 c e2, g2.dealer_hand = g.dealer_hand ++ e1 ++ c :: e2 →
      (calculate_hand_value (g.dealer_hand ++ e1)).1 < 17) ∧
    (∃ res msg,
      compare_hands ((calculate_hand_value g2.player_hand).1 : Int)
          ((calculate_hand_value g2.dealer_hand).1 : Int) = .ok (res, msg) ∧
      (res = "win" → g2.balance = g.balance + g.current_bet) ∧
      (res = "lose" → g2.balance = g.balance - g.current_bet) ∧
      (res = "push" ∨ res = "bust" → g2.balance = g.balance) ∧
      g2.game_state =
        (if g.target_balance ≤ g2.balance then "won"
          else if g2.balance ≤ 0 then "out_of_money" else "result")) := by
  obtain ⟨dh, deck2, msg, hdp, hdh, _hdk, hph, _hcb, _htb, hcmp, _hr, hbal, hstate⟩ :=
    player_stand_playing_ok g hplay r g2 h
  obtain ⟨hfin, hext, hgrow⟩ :=
    dealerLoop_ok g.deck.length g.dealer_hand g.deck dh deck2 hdp
  refine ⟨?_, ?_, ?_,
    claimedResult ((calculate_hand_value g.player_hand).1 : Int)
      ((calculate_hand_value dh).1 : Int), msg, ?_, ?_, ?_, ?_, hstate⟩
  · rw [hdh]; exact hfin
  · rw [hdh]; exact hext
  · rw [hdh]; exact hgrow
  · rw [hph, hdh]; exact hcmp
  · intro hres; rw [hbal, if_pos hres]
  · intro hres
    rw [hbal, if_neg (by rw [hres]; decide), if_pos hres]
  · intro hres
    rcases hres with hres | hres
    · rw [hbal, if_neg (by rw [hres]; decide), if_neg (by rw [hres]; decide)]
    · rw [hbal, if_neg (by rw [hres]; decide), if_neg (by rw [hres]; decide)]

/-- A `playing` state about to stand: player K♠ 9♥ (19) versus dealer
K♣ 7♣ (17, so the dealer draws nothing). -/
def gStand : BlackjackGame :=
  { starting_balance := 2000
    target_balance := 25000
    mode := "classic"
    balance := 2000
    current_bet := 100
    deck := []
    player_hand := [⟨.spades, .king⟩, ⟨.hearts, .nine⟩]
    dealer_hand := [⟨.clubs, .king⟩, ⟨.clubs, .seven⟩]
    game_state := "playing"
    result_message := "" }

/-- The state `player_stand` produces from `gStand`: a 19-vs-17 win pays the
bet and the phase is `result`. -/
def gStandAfter : BlackjackGame :=
  { starting_balance := 2000
    target_balance := 25000
    mode := "classic"
    balance := 2100
    current_bet := 100
    deck := []
    player_hand := [⟨.spades, .king⟩, ⟨.hearts, .nine⟩]
    dealer_hand := [⟨.clubs, .king⟩, ⟨.clubs, .seven⟩]
    game_state := "result"
    result_message := "Player wins: 19 vs 17." }

/-- C6 witness: standing on `gStand` plays the dealer to its standing 17,
wins 19 vs 17 and pays the bet; the theorem's dealer-total bound holds on
the resulting state. -/
theorem player_stand_dealer_and_settlement_check :
    gStand.game_state = "playing" ∧
    gStand.player_stand = .ok (("stand", "Player wins: 19 vs 17."), gStandAfter) ∧
    17 ≤ (calculate_hand_value gStandAfter.dealer_hand).1 :=
  ⟨rfl, by rfl,
   (player_stand_dealer_and_settlement gStand
      ("stand", "Player wins: 19 vs 17.") gStandAfter rfl (by rfl)).1⟩
